import Mathlib

/-!
Verification of the autoblitz bot-engine core against its specification.

This file gives a shallow embedding, in Lean 4, of the components under
`app/bot_engine/` of the autoblitz backend:

* `OrderExecutor` (`executors/order_executor.py`): order submission with
  retries, active/completed order tracking, status refresh;
* `PositionManager` (`managers/position_manager.py`): grid position
  accounting driven by filled orders;
* `RiskManager` (`managers/risk_manager.py`): the ordered risk checks;
* `BotRunner` (`core/bot_runner.py`): the main trading loop as a step
  function on an explicit loop state;
* `BotLifecycleManager` (`core/lifecycle_manager.py`): bot start and the
  heartbeat-based dead-bot monitor.

Python `Decimal` values are modelled as `ℚ` (the source arithmetic on the
inputs used here is exact), datetimes as `ℕ` seconds where they matter and
are dropped where no claim depends on them, dicts keyed by order id as
lists with unique-key insertion, and exceptions as explicit alternatives:
every `try/except` body is translated so that each raise point inside it
is an enumerated outcome routed to the translated except-branch.
Log calls are dropped; the Korean log/reason messages are abbreviated to
short English tags, as no verified property depends on their text.
-/

/-! ### Order data model, from `executors/order_executor.py` -/

/-- Enum `OrderStatus` (order_executor.py lines 13-21).  The Python member
`OPEN` is spelled `opn` because `open` is a Lean keyword. -/
inductive OrderStatus where
  | new
  | pending
  | opn
  | partiallyFilled
  | filled
  | canceled
  | rejected
  | expired
deriving DecidableEq, Repr

/-- Conversion `OrderStatus(s)` from a raw exchange status string: `some`
when `s` is one of the enum values, `none` when the constructor call would
raise `ValueError`.  The value strings are exactly those of the source. -/
def statusOfString (s : String) : Option OrderStatus :=
  if s = "new" then some .new
  else if s = "pending" then some .pending
  else if s = "open" then some .opn
  else if s = "partially_filled" then some .partiallyFilled
  else if s = "filled" then some .filled
  else if s = "canceled" then some .canceled
  else if s = "rejected" then some .rejected
  else if s = "expired" then some .expired
  else none

/-- Enum `OrderSide` (order_executor.py lines 23-25). -/
inductive OrderSide where
  | buy
  | sell
deriving DecidableEq, Repr

/-- Enum `OrderType` (order_executor.py lines 27-31). -/
inductive OrderType where
  | market
  | limit
  | stop
  | stopLimit
deriving DecidableEq, Repr

/-- Dataclass `OrderInfo` (order_executor.py lines 33-94).  The datetime
fields and the fee/metadata dicts are omitted: no claim below depends on
them.  `remaining_quantity` starts at `quantity` as `__post_init__` sets
it. -/
structure OrderInfo where
  order_id : String
  symbol : String
  side : OrderSide
  type : OrderType
  quantity : ℚ
  price : Option ℚ := none
  status : OrderStatus := .new
  filled_quantity : ℚ := 0
  remaining_quantity : ℚ := 0
  average_price : Option ℚ := none
  cost : ℚ := 0
deriving DecidableEq, Repr

/-- Method `OrderInfo.update_status` (order_executor.py lines 71-86),
without the timestamp writes. -/
def OrderInfo.update_status (o : OrderInfo) (new_status : OrderStatus)
    (filled_qty : Option ℚ) (avg_price : Option ℚ) : OrderInfo :=
  let o := { o with status := new_status }
  let o := match filled_qty with
    | some fq => { o with filled_quantity := fq, remaining_quantity := o.quantity - fq }
    | none => o
  let o := match avg_price with
    | some ap => { o with average_price := some ap, cost := o.filled_quantity * ap }
    | none => o
  if new_status = .filled then { o with remaining_quantity := 0 } else o

/-- Method `OrderInfo.is_active` (order_executor.py lines 88-90). -/
def OrderInfo.is_active (o : OrderInfo) : Bool :=
  o.status = .new ∨ o.status = .pending ∨ o.status = .opn ∨ o.status = .partiallyFilled

/-- Method `OrderInfo.is_completed` (order_executor.py lines 92-94). -/
def OrderInfo.is_completed (o : OrderInfo) : Bool :=
  o.status = .filled ∨ o.status = .canceled ∨ o.status = .rejected ∨ o.status = .expired

/-! ### Exchange responses and the dict-as-list helpers -/

/-- Shape of the order record returned by an exchange client
(`ExchangeClient.createMarketOrder` etc., consumed in order_executor.py).
Fields mirror the keys the executor reads: `id`, `status`, `price`,
`average`, `cost`, `filled`.  `price`/`average` are `Option` because the
source reads them with `.get` and a truthiness test. -/
structure ExchOrder where
  id : String
  status : String
  price : Option ℚ := none
  average : Option ℚ := none
  cost : ℚ := 0
  filled : ℚ := 0
deriving DecidableEq, Repr

/-- Python truthiness filter used on `exchange_order.get('average')` and
`.get('price')`: `None` and `0` are falsy, so the executor passes `None`
through in both cases. -/
def pyTruthy (q : Option ℚ) : Option ℚ :=
  match q with
  | some a => if a = 0 then none else some a
  | none => none

/-- Dict write `d[o.order_id] = o` on a dict keyed by `order_id`,
modelled on a unique-key list: replace in place when present, append
otherwise. -/
def insertById (l : List OrderInfo) (o : OrderInfo) : List OrderInfo :=
  if l.any (fun x => x.order_id = o.order_id)
  then l.map (fun x => if x.order_id = o.order_id then o else x)
  else l ++ [o]

/-- Dict delete `del d[i]` on a dict keyed by `order_id`. -/
def eraseById (l : List OrderInfo) (i : String) : List OrderInfo :=
  l.filter (fun x => ¬ x.order_id = i)

/-- Lookup by order id (dict membership plus read). -/
def findById (l : List OrderInfo) (i : String) : Option OrderInfo :=
  l.find? (fun x => x.order_id = i)

/-- Number of entries of a list of orders carrying a given id. -/
def countById (l : List OrderInfo) (i : String) : ℕ :=
  (l.filter (fun x => x.order_id = i)).length

/-! ### OrderExecutor state and operations -/

/-- State of `OrderExecutor` (order_executor.py lines 96-114).
`active_orders` is the dict keyed by order id, `completed_orders` the
append-only list.  `retry_delay` only feeds `asyncio.sleep` and is
dropped. -/
structure OrderExecutor where
  symbol : String
  active_orders : List OrderInfo := []
  completed_orders : List OrderInfo := []
  max_retries : ℕ := 3
  total_orders : ℕ := 0
  successful_orders : ℕ := 0
  failed_orders : ℕ := 0
deriving DecidableEq, Repr

/-- Outcome of one underlying exchange submission attempt inside
`_execute_exchange_order`: the call raises, returns a falsy value, or
returns an order record. -/
inductive ExchAttempt where
  | raises
  | returnsNone
  | returnsOrder (resp : ExchOrder)
deriving DecidableEq, Repr

/-- Attempt that does not produce an order record (raise or falsy
return). -/
def ExchAttempt.failed : ExchAttempt → Bool
  | .returnsOrder _ => false
  | _ => true

/-- Retry loop of `_execute_exchange_order` (order_executor.py lines
313-363): attempts `start, start+1, ...` while `fuel` remains; the first
attempt returning a truthy record is the result, and exhaustion yields
`None`.  The environment `env` gives the outcome of each attempt. -/
def execAttempts (env : ℕ → ExchAttempt) : ℕ → ℕ → Option ExchOrder
  | _, 0 => none
  | start, fuel + 1 =>
      match env start with
      | .returnsOrder r => some r
      | _ => execAttempts env (start + 1) fuel

/-- Method `OrderExecutor._execute_exchange_order`: `for attempt in
range(self.max_retries)` over the attempt outcomes. -/
def execute_exchange_order (max_retries : ℕ) (env : ℕ → ExchAttempt) : Option ExchOrder :=
  execAttempts env 0 max_retries

/-- Count of exchange attempts actually performed by the retry loop. -/
def attemptsUsed (env : ℕ → ExchAttempt) : ℕ → ℕ → ℕ
  | _, 0 => 0
  | start, fuel + 1 =>
      match env start with
      | .returnsOrder _ => 1
      | _ => 1 + attemptsUsed env (start + 1) fuel

/-- Method `OrderExecutor.create_market_order` (order_executor.py lines
116-169).  Returns the Python return value together with the new
executor state.  The raise points inside the `try` body are:
`OrderStatus(exchange_order['status'])` when the status string is not an
enum value; both land in the `except` branch, which increments
`failed_orders` and returns `None`. -/
def create_market_order (ex : OrderExecutor) (side : OrderSide) (quantity : ℚ)
    (env : ℕ → ExchAttempt) : Option OrderInfo × OrderExecutor :=
  let order_info : OrderInfo :=
    { order_id := "", symbol := ex.symbol, side := side, type := .market,
      quantity := quantity, remaining_quantity := quantity }
  match execute_exchange_order ex.max_retries env with
  | some resp =>
      match statusOfString resp.status with
      | none =>
          -- OrderStatus(resp.status) raises ValueError; caught by the except.
          (none, { ex with failed_orders := ex.failed_orders + 1 })
      | some st =>
          let order_info := { order_info with
            order_id := resp.id, status := st,
            average_price := pyTruthy resp.price, cost := resp.cost }
          if resp.status = "closed" then
            -- the source's immediate-fill branch; unreachable because
            -- "closed" is not an OrderStatus value, kept for fidelity
            let order_info := order_info.update_status .filled
              (some resp.filled) (pyTruthy resp.average)
            (some order_info,
             { ex with completed_orders := ex.completed_orders ++ [order_info],
                       successful_orders := ex.successful_orders + 1,
                       total_orders := ex.total_orders + 1 })
          else
            (some order_info,
             { ex with active_orders := insertById ex.active_orders order_info,
                       total_orders := ex.total_orders + 1 })
  | none =>
      (none, { ex with failed_orders := ex.failed_orders + 1 })

/-- Method `OrderExecutor.create_limit_order` (order_executor.py lines
171-214), same shape without the immediate-fill branch. -/
def create_limit_order (ex : OrderExecutor) (side : OrderSide) (quantity price : ℚ)
    (env : ℕ → ExchAttempt) : Option OrderInfo × OrderExecutor :=
  let order_info : OrderInfo :=
    { order_id := "", symbol := ex.symbol, side := side, type := .limit,
      quantity := quantity, price := some price, remaining_quantity := quantity }
  match execute_exchange_order ex.max_retries env with
  | some resp =>
      match statusOfString resp.status with
      | none =>
          (none, { ex with failed_orders := ex.failed_orders + 1 })
      | some st =>
          let order_info := { order_info with order_id := resp.id, status := st }
          (some order_info,
           { ex with active_orders := insertById ex.active_orders order_info,
                     total_orders := ex.total_orders + 1 })
  | none =>
      (none, { ex with failed_orders := ex.failed_orders + 1 })

/-- Method `OrderExecutor.get_order_status` (order_executor.py lines
258-298).  `resp` is what `exchange_client.get_order_status` returned
(`none` models a falsy response).  A status string outside the enum makes
`OrderStatus(...)` raise before any state is mutated, so the except
branch returns `None` with the state unchanged. -/
def get_order_status (ex : OrderExecutor) (order_id : String) (resp : Option ExchOrder) :
    Option OrderInfo × OrderExecutor :=
  match findById ex.active_orders order_id with
  | some order_info =>
      match resp with
      | none => (some order_info, ex)
      | some r =>
          match statusOfString r.status with
          | none => (none, ex)
          | some new_status =>
              let old_status := order_info.status
              let oi := order_info.update_status new_status (some r.filled) (pyTruthy r.average)
              let ex := { ex with active_orders := insertById ex.active_orders oi }
              if oi.is_completed ∧ ¬ old_status = new_status then
                (some oi,
                 { ex with active_orders := eraseById ex.active_orders order_id,
                           completed_orders := ex.completed_orders ++ [oi],
                           successful_orders :=
                             if new_status = .filled
                             then ex.successful_orders + 1 else ex.successful_orders })
              else
                (some oi, ex)
  | none =>
      match findById ex.completed_orders order_id with
      | some o => (some o, ex)
      | none => (none, ex)

/-! ### PositionManager, from `managers/position_manager.py` -/

/-- Enum `PositionStatus` (position_manager.py lines 16-21). -/
inductive PositionStatus where
  | empty
  | building
  | holding
  | closing
  | closed
deriving DecidableEq, Repr

/-- Dataclass `Position` (position_manager.py lines 37-69).  The
`grid_levels` schedule, target/stop prices and timestamps are omitted:
no claim below reads them.  `grid_level` is a Python `int`, kept as `ℤ`. -/
structure Position where
  symbol : String
  status : PositionStatus
  total_quantity : ℚ := 0
  total_cost : ℚ := 0
  average_price : ℚ := 0
  grid_level : ℤ := 0
  max_grid_level : ℤ := 7
  unrealized_pnl : ℚ := 0
  realized_pnl : ℚ := 0
deriving DecidableEq, Repr

/-- Method `Position.update_average_price` (position_manager.py lines
71-76). -/
def Position.update_average_price (p : Position) : Position :=
  if p.total_quantity > 0
  then { p with average_price := p.total_cost / p.total_quantity }
  else { p with average_price := 0 }

/-- Method `Position.calculate_unrealized_pnl` (position_manager.py lines
78-84). -/
def Position.calculate_unrealized_pnl (p : Position) (current_price : ℚ) : Position :=
  if p.total_quantity > 0
  then { p with unrealized_pnl := p.total_quantity * current_price - p.total_cost }
  else { p with unrealized_pnl := 0 }

/-- State of `PositionManager` (position_manager.py lines 96-119):
the owned `Position`, the pending-order dict, the completed list and the
cycle counters.  `capital`, the exchange client handle and the fee total
are omitted (unused by the claims). -/
structure PositionManager where
  position : Position
  pending_orders : List OrderInfo := []
  completed_orders : List OrderInfo := []
  total_cycles : ℕ := 0
  successful_cycles : ℕ := 0
deriving DecidableEq, Repr

/-- Constructor state of a fresh `PositionManager` for a symbol: an
`EMPTY` position with the dataclass defaults. -/
def PositionManager.init (symbol : String) : PositionManager :=
  { position := { symbol := symbol, status := .empty } }

/-- Dust epsilon `Decimal('0.00001')` (position_manager.py line 261). -/
def dustEpsilon : ℚ := 1 / 100000

/-- Method `PositionManager._close_position` (position_manager.py lines
276-294): resets the position and ends in `EMPTY` (the transient
`CLOSED` value is overwritten inside the same call after a sleep). -/
def PositionManager.close_position (m : PositionManager) : PositionManager :=
  { m with position := { m.position with
      status := .empty, total_quantity := 0, total_cost := 0,
      average_price := 0, grid_level := 0, unrealized_pnl := 0 } }

/-- Method `PositionManager._process_filled_order` (position_manager.py
lines 222-274). -/
def PositionManager.process_filled_order (m : PositionManager) (o : OrderInfo) :
    PositionManager :=
  match o.side with
  | .buy =>
      let p := { m.position with
        total_quantity := m.position.total_quantity + o.filled_quantity,
        total_cost := m.position.total_cost + o.cost }
      let p := p.update_average_price
      let p := { p with grid_level := p.grid_level + 1, status := .holding }
      { m with position := p }
  | .sell =>
      let sold_quantity := o.filled_quantity
      let sold_value := o.cost
      let cost_basis := m.position.average_price * sold_quantity
      let realized_pnl := sold_value - cost_basis
      let p := { m.position with
        realized_pnl := m.position.realized_pnl + realized_pnl,
        total_quantity := m.position.total_quantity - sold_quantity }
      let p := { p with total_cost := p.total_quantity * p.average_price }
      let m := { m with position := p }
      if p.total_quantity ≤ dustEpsilon then
        let m := m.close_position
        { m with total_cycles := m.total_cycles + 1,
                 successful_cycles :=
                   if realized_pnl > 0
                   then m.successful_cycles + 1 else m.successful_cycles }
      else m

/-- Method `PositionManager.add_buy_order` (position_manager.py lines
149-168). -/
def PositionManager.add_buy_order (m : PositionManager) (o : OrderInfo) : PositionManager :=
  if ¬ o.side = .buy then m
  else
    let m := { m with pending_orders := insertById m.pending_orders o }
    if m.position.status = .empty
    then { m with position := { m.position with status := .building } }
    else m

/-- Method `PositionManager.add_sell_order` (position_manager.py lines
170-188). -/
def PositionManager.add_sell_order (m : PositionManager) (o : OrderInfo) : PositionManager :=
  if ¬ o.side = .sell then m
  else
    let m := { m with pending_orders := insertById m.pending_orders o }
    if o.quantity ≥ m.position.total_quantity
    then { m with position := { m.position with status := .closing } }
    else m

/-- Method `PositionManager.update_order_status` (position_manager.py
lines 190-220): unknown ids are a logged no-op; a `FILLED` update runs
`_process_filled_order` and retires the order; `CANCELED`/`REJECTED`
retire it without position changes. -/
def PositionManager.update_order_status (m : PositionManager) (updated : OrderInfo) :
    PositionManager :=
  match findById m.pending_orders updated.order_id with
  | none => m
  | some _ =>
      let m := { m with pending_orders := insertById m.pending_orders updated }
      if updated.status = .filled then
        let m := m.process_filled_order updated
        { m with pending_orders := eraseById m.pending_orders updated.order_id,
                 completed_orders := m.completed_orders ++ [updated] }
      else if updated.status = .canceled ∨ updated.status = .rejected then
        { m with pending_orders := eraseById m.pending_orders updated.order_id,
                 completed_orders := m.completed_orders ++ [updated] }
      else m

/-- One externally observable mutation of a `PositionManager`: the three
entry points the `BotRunner` drives. -/
inductive PMOp where
  | addBuy (o : OrderInfo)
  | addSell (o : OrderInfo)
  | updateStatus (o : OrderInfo)
deriving DecidableEq, Repr

/-- The order carried by a `PMOp`. -/
def PMOp.order : PMOp → OrderInfo
  | .addBuy o => o
  | .addSell o => o
  | .updateStatus o => o

/-- Apply one operation. -/
def PositionManager.applyOp (m : PositionManager) : PMOp → PositionManager
  | .addBuy o => m.add_buy_order o
  | .addSell o => m.add_sell_order o
  | .updateStatus o => m.update_order_status o

/-- Apply a sequence of operations in order. -/
def PositionManager.applyOps (m : PositionManager) : List PMOp → PositionManager
  | [] => m
  | op :: rest => (m.applyOp op).applyOps rest

/-! ### RiskManager, from `managers/risk_manager.py` -/

/-- Dataclass `RiskCheckResult` (risk_manager.py lines 11-19); reason
strings are abbreviated English tags. -/
structure RiskCheckResult where
  should_stop : Bool := false
  should_close_position : Bool := false
  should_reduce_position : Bool := false
  should_pause : Bool := false
  reason : String := ""
  severity : String := "LOW"
deriving DecidableEq, Repr

/-- State of `RiskManager` (risk_manager.py lines 24-51): settings read
in `__init__` with their source defaults, plus the mutable tracking
variables.  The wall-clock reset timestamps are replaced by two booleans
passed to `check_risk` saying whether the hour/day window has elapsed. -/
structure RiskManager where
  capital : ℚ
  max_loss_percentage : ℚ := -15
  max_drawdown : ℚ := -20
  max_position_size : ℚ := 80
  daily_loss_limit : ℚ := -5
  max_trades_per_hour : ℕ := 10
  max_trades_per_day : ℕ := 100
  volatility_threshold : ℚ := 5
  daily_pnl : ℚ := 0
  peak_balance : ℚ
  trade_count_hour : ℕ := 0
  trade_count_day : ℕ := 0
  last_price : Option ℚ := none
deriving DecidableEq, Repr

/-- Constructor `RiskManager(capital, settings)` with the default
settings (`settings.get` fallbacks); `peak_balance` starts at capital. -/
def RiskManager.init (capital : ℚ) : RiskManager :=
  { capital := capital, peak_balance := capital }

/-- Method `RiskManager.record_trade` (risk_manager.py lines 238-243). -/
def RiskManager.record_trade (rm : RiskManager) (profit : ℚ) : RiskManager :=
  { rm with trade_count_hour := rm.trade_count_hour + 1,
            trade_count_day := rm.trade_count_day + 1,
            daily_pnl := rm.daily_pnl + profit }

/-- Method `RiskManager._reset_time_counters` (risk_manager.py lines
223-236), with the elapsed-window tests supplied as booleans. -/
def RiskManager.reset_time_counters (rm : RiskManager) (hourElapsed dayChanged : Bool) :
    RiskManager :=
  let rm := if hourElapsed then { rm with trade_count_hour := 0 } else rm
  if dayChanged then { rm with trade_count_day := 0, daily_pnl := 0 } else rm

/-- Method `RiskManager._check_loss_limits` (risk_manager.py lines
95-124). -/
def RiskManager.check_loss_limits (rm : RiskManager) (total_profit : ℚ) : RiskCheckResult :=
  let loss_percentage := if rm.capital > 0 then total_profit / rm.capital * 100 else 0
  if loss_percentage ≤ rm.max_loss_percentage then
    { should_stop := true, reason := "max loss exceeded", severity := "CRITICAL" }
  else
    let daily_loss_percentage := if rm.capital > 0 then rm.daily_pnl / rm.capital * 100 else 0
    if daily_loss_percentage ≤ rm.daily_loss_limit then
      { should_pause := true, reason := "daily loss limit exceeded", severity := "HIGH" }
    else
      { reason := "loss limits passed" }

/-- Method `RiskManager._check_position_size` (risk_manager.py lines
126-146); the position dict is consumed only through
`position.get('total_cost', 0)`. -/
def RiskManager.check_position_size (rm : RiskManager) (total_cost : ℚ) : RiskCheckResult :=
  let position_percentage := if rm.capital > 0 then total_cost / rm.capital * 100 else 0
  if position_percentage > rm.max_position_size then
    { should_reduce_position := true, reason := "position size exceeded", severity := "MEDIUM" }
  else
    { reason := "position size passed" }

/-- Method `RiskManager._check_trading_frequency` (risk_manager.py lines
148-173). -/
def RiskManager.check_trading_frequency (rm : RiskManager) : RiskCheckResult :=
  if rm.trade_count_hour ≥ rm.max_trades_per_hour then
    { should_pause := true, reason := "hourly trade limit", severity := "MEDIUM" }
  else if rm.trade_count_day ≥ rm.max_trades_per_day then
    { should_pause := true, reason := "daily trade limit", severity := "HIGH" }
  else
    { reason := "trading frequency passed" }

/-- Method `RiskManager._check_market_volatility` (risk_manager.py lines
175-195).  The Python guard `if hasattr(self, 'last_price') and
self.last_price:` is a truthiness test, so a recorded price of `0` skips
the comparison; `last_price` is only written on the non-pausing path. -/
def RiskManager.check_market_volatility (rm : RiskManager) (current_price : ℚ) :
    RiskCheckResult × RiskManager :=
  match rm.last_price with
  | some lp =>
      if ¬ lp = 0 then
        let price_change := |current_price - lp| / lp * 100
        if price_change > rm.volatility_threshold then
          ({ should_pause := true, reason := "high volatility", severity := "MEDIUM" }, rm)
        else
          ({ reason := "volatility passed" }, { rm with last_price := some current_price })
      else
        ({ reason := "volatility passed" }, { rm with last_price := some current_price })
  | none =>
      ({ reason := "volatility passed" }, { rm with last_price := some current_price })

/-- Method `RiskManager._check_drawdown` (risk_manager.py lines 197-221):
updates the peak balance, then compares the drawdown ratio. -/
def RiskManager.check_drawdown (rm : RiskManager) (total_profit : ℚ) :
    RiskCheckResult × RiskManager :=
  let current_balance := rm.capital + total_profit
  let rm := if current_balance > rm.peak_balance
            then { rm with peak_balance := current_balance } else rm
  let drawdown := (current_balance - rm.peak_balance) / rm.peak_balance * 100
  if drawdown ≤ rm.max_drawdown then
    ({ should_stop := true, reason := "max drawdown exceeded", severity := "CRITICAL" }, rm)
  else
    ({ reason := "drawdown passed" }, rm)

/-- Method `RiskManager.check_risk` (risk_manager.py lines 53-93): resets
the time counters, then runs the five checks in order.  The source
propagates the loss-limit result only `if loss_check.should_stop`, the
position result only `if ...should_reduce_position`, the frequency and
volatility results only `if ...should_pause`, and the drawdown result
only `if ...should_stop`; otherwise it falls through to the neutral
passed result. -/
def RiskManager.check_risk (rm : RiskManager) (current_price total_cost total_profit : ℚ)
    (hourElapsed dayChanged : Bool) : RiskCheckResult × RiskManager :=
  let rm := rm.reset_time_counters hourElapsed dayChanged
  let loss_check := rm.check_loss_limits total_profit
  if loss_check.should_stop then (loss_check, rm)
  else
    let position_check := rm.check_position_size total_cost
    if position_check.should_reduce_position then (position_check, rm)
    else
      let frequency_check := rm.check_trading_frequency
      if frequency_check.should_pause then (frequency_check, rm)
      else
        let volres := rm.check_market_volatility current_price
        if volres.1.should_pause then (volres.1, rm)
        else
          let rm := volres.2
          let ddres := rm.check_drawdown total_profit
          if ddres.1.should_stop then (ddres.1, ddres.2)
          else
            ({ reason := "all checks passed" }, ddres.2)

/-! ### BotRunner main trading loop, from `core/bot_runner.py`

The loop `_main_trading_loop` (lines 219-310) is embedded as a step
function on an explicit loop state.  Exchange reads, the risk verdict and
the strategy signal are supplied per tick by a `TickEnv` (they come from
collaborator objects whose internals the loop does not constrain); order
fills are external events and the position quantity read by liquidation
is carried as a state field the modelled ticks do not mutate.  The
observable side effects the claims speak about (market-data fetches,
order submissions, `cancel_all_orders`, the forced-liquidation market
sell, `_emergency_stop` invocations) are recorded in counters of the
state. -/

/-- Enum `BotState` (bot_runner.py lines 19-27). -/
inductive BotState where
  | idle
  | initializing
  | running
  | paused
  | stopping
  | stopped
  | error
deriving DecidableEq, Repr

/-- Strategy signal action consumed by the loop (`signal.action` is one
of the strings "BUY", "SELL", "HOLD"). -/
inductive SigAction where
  | buy
  | sell
  | hold
deriving DecidableEq, Repr

/-- Environment of one tick: whether the tick body raises (modelled at
the first exchange call of the tick), the ticker price when market data
arrives, the `RiskManager` verdict, the strategy signal action, and the
`has_open_position()` answer used by the graceful-stop test. -/
structure TickEnv where
  raises : Bool := false
  market_price : Option ℚ := none
  risk : RiskCheckResult := {}
  signal_action : SigAction := .hold
  has_open_position : Bool := false
deriving Repr

/-- Loop-relevant state of a `BotRunner` (bot_runner.py lines 32-72),
plus ghost counters for the observable effects and an `exited` flag
recording that the loop body executed `break`. -/
structure LoopState where
  stop_requested : Bool := false
  graceful_stop_requested : Bool := false
  paused : Bool := false
  state : BotState := .running
  tick_count : ℕ := 0
  error_count : ℕ := 0
  last_price : Option ℚ := none
  position_qty : ℚ := 0
  running_flag : Bool := true
  exited : Bool := false
  market_fetches : ℕ := 0
  orders_placed : ℕ := 0
  cancel_all_calls : ℕ := 0
  liquidation_orders : ℕ := 0
  emergency_stops : ℕ := 0
deriving DecidableEq, Repr

/-- Method `BotRunner._close_all_positions` (bot_runner.py lines
529-548): cancel all open orders, then issue one market sell when the
held quantity is positive. -/
def LoopState.close_all_positions (s : LoopState) : LoopState :=
  { s with cancel_all_calls := s.cancel_all_calls + 1,
           liquidation_orders :=
             if s.position_qty > 0
             then s.liquidation_orders + 1 else s.liquidation_orders }

/-- Method `BotRunner._emergency_stop` (bot_runner.py lines 522-527):
liquidate, set the immediate-stop flag, transition to `ERROR`. -/
def LoopState.emergency_stop (s : LoopState) : LoopState :=
  let s := s.close_all_positions
  { s with emergency_stops := s.emergency_stops + 1,
           stop_requested := true, state := .error }

/-- Method `BotRunner.stop` (bot_runner.py lines 500-503). -/
def LoopState.stopBot (s : LoopState) : LoopState :=
  { s with stop_requested := true }

/-- Method `BotRunner.request_graceful_stop` (bot_runner.py lines
505-508). -/
def LoopState.request_graceful_stop (s : LoopState) : LoopState :=
  { s with graceful_stop_requested := true }

/-- Method `BotRunner.pause` (bot_runner.py lines 510-514). -/
def LoopState.pauseBot (s : LoopState) : LoopState :=
  { s with paused := true, state := .paused }

/-- Method `BotRunner.resume` (bot_runner.py lines 516-520). -/
def LoopState.resumeBot (s : LoopState) : LoopState :=
  { s with paused := false, state := .running }

/-- One iteration of the `while not self._stop_requested` body of
`_main_trading_loop` (bot_runner.py lines 221-310), entered with the
loop condition already true.  Branches, in source order: the pause
`continue`; the graceful-stop `break` (only when no open position); the
tick body, whose exception path increments `error_count` and escalates to
`_emergency_stop` plus `break` at five errors; the market-data fetch with
the empty-data `continue`; the risk verdict dispatch (stop →
emergency stop and `break`; close-position → liquidate and fall
through; pause → enter `PAUSED` and `continue`); and signal execution
(BUY/SELL submit an order, HOLD only refreshes tracked orders). -/
def tickStep (s : LoopState) (env : TickEnv) : LoopState :=
  let s := { s with tick_count := s.tick_count + 1 }
  if s.paused then s
  else if s.graceful_stop_requested ∧ ¬ env.has_open_position then
    { s with exited := true }
  else if env.raises then
    let s := { s with error_count := s.error_count + 1 }
    if s.error_count ≥ 5 then { s.emergency_stop with exited := true } else s
  else
    let s := { s with market_fetches := s.market_fetches + 1 }
    match env.market_price with
    | none => s
    | some p =>
        let s := { s with last_price := some p }
        if env.risk.should_stop then { s.emergency_stop with exited := true }
        else
          let s := if env.risk.should_close_position then s.close_all_positions else s
          if env.risk.should_pause then { s with paused := true, state := .paused }
          else
            match env.signal_action with
            | .buy => { s with orders_placed := s.orders_placed + 1 }
            | .sell => { s with orders_placed := s.orders_placed + 1 }
            | .hold => s

/-- The trading loop over a finite trace of tick environments: the head
condition re-checks `stop_requested`, and a recorded `break` ends the
run. -/
def runLoop (s : LoopState) : List TickEnv → LoopState
  | [] => s
  | env :: rest =>
      if s.exited ∨ s.stop_requested then s
      else runLoop (tickStep s env) rest

/-! ### BotLifecycleManager, from `core/lifecycle_manager.py` -/

/-- Enum `BotStatus` (app/models/bot.py lines 9-15), the persisted bot
status. -/
inductive BotStatus where
  | created
  | running
  | paused
  | stopping
  | stopped
  | error
deriving DecidableEq, Repr

/-- Persisted bot record as read by `execute_bot_action` (the columns the
start path consumes). -/
structure BotRecord where
  id : ℕ
  user_id : ℕ
  status : BotStatus
deriving DecidableEq, Repr

/-- Result of a lifecycle action: the returned `success` flag and the
status value the call wrote to the database (`none` when it wrote
nothing). -/
structure ActionResult where
  success : Bool
  persisted_status : Option BotStatus := none
deriving DecidableEq, Repr

/-- Number of required parameters of `BotRunner.__init__` besides `self`
(bot_runner.py line 32: `def __init__(self, bot_id, user_id, config)`). -/
def botRunnerInitRequiredParams : ℕ := 3

/-- Number of positional arguments `_start_bot` passes to the `BotRunner`
constructor (lifecycle_manager.py line 141:
`runner = BotRunner(context, user_api_keys)`). -/
def startBotCtorArgs : ℕ := 2

/-- Outcome of a Python call: `ok` or the `TypeError` raised when the
positional-argument count misses a required parameter. -/
inductive PyCall where
  | ok
  | typeError
deriving DecidableEq, Repr

/-- Python call semantics of the `BotRunner` constructor at the given
positional-argument count: `TypeError` unless every required parameter is
supplied. -/
def callBotRunnerInit (numArgs : ℕ) : PyCall :=
  if numArgs = botRunnerInitRequiredParams then .ok else .typeError

/-- Statuses from which `_start_bot` allows starting
(lifecycle_manager.py line 121). -/
def startable (st : BotStatus) : Bool :=
  st = .created ∨ st = .stopped ∨ st = .error

/-- Method `BotLifecycleManager._start_bot` (lifecycle_manager.py lines
113-179).  `registry` is the key set of `self.running_bots`; `api_keys`
is the `_get_user_api_keys` result (`none` when missing).  The `try` body
constructs the runner with `startBotCtorArgs` positional arguments; the
`except` branch persists `ERROR` with the exception message and returns
failure.  On the (source-unreachable) `ok` outcome the body proceeds to
register the context, persist `RUNNING` and schedule `run()`. -/
def start_bot (registry : List ℕ) (bot : BotRecord) (api_keys : Option Unit) :
    ActionResult × List ℕ :=
  if bot.id ∈ registry then
    ({ success := false }, registry)
  else if ¬ startable bot.status then
    ({ success := false }, registry)
  else
    match api_keys with
    | none => ({ success := false }, registry)
    | some _ =>
        match callBotRunnerInit startBotCtorArgs with
        | .typeError =>
            ({ success := false, persisted_status := some .error }, registry)
        | .ok =>
            ({ success := true, persisted_status := some .running },
             registry ++ [bot.id])

/-- Registry entry `BotContext` (lifecycle_manager.py lines 30-42)
restricted to the fields the monitor and the runner-facing operations
touch: the heartbeat timestamp (seconds) written once at line 146, and
the runner it controls (as the runner loop state). -/
structure BotContextM where
  bot_id : ℕ
  last_heartbeat : ℕ
  runner : LoopState
deriving DecidableEq, Repr

/-- Operations the lifecycle manager and the runner itself perform on a
registered context after `_start_bot` returns.  `heartbeatIteration` is
one pass of `BotRunner._heartbeat_loop` (bot_runner.py lines 453-470):
it logs and calls `_save_bot_state`, whose body is `pass`, so it changes
nothing.  `pauseBot`/`resumeBot`/`gracefulStop`/`stopRunner` are the
runner control methods reached from `_pause_bot`, `_resume_bot` and
`_stop_bot`; `runnerTick` is one main-loop iteration. -/
inductive LMOp where
  | heartbeatIteration (botId : ℕ)
  | pauseBot (botId : ℕ)
  | resumeBot (botId : ℕ)
  | gracefulStop (botId : ℕ)
  | stopRunner (botId : ℕ)
  | runnerTick (botId : ℕ) (env : TickEnv)

/-- Apply one context-level operation to a registry. -/
def applyLMOp (reg : List BotContextM) : LMOp → List BotContextM
  | .heartbeatIteration _ => reg
  | .pauseBot i =>
      reg.map (fun c => if c.bot_id = i then { c with runner := c.runner.pauseBot } else c)
  | .resumeBot i =>
      reg.map (fun c => if c.bot_id = i then { c with runner := c.runner.resumeBot } else c)
  | .gracefulStop i =>
      reg.map (fun c =>
        if c.bot_id = i then { c with runner := c.runner.request_graceful_stop } else c)
  | .stopRunner i =>
      reg.map (fun c => if c.bot_id = i then { c with runner := c.runner.stopBot } else c)
  | .runnerTick i env =>
      reg.map (fun c => if c.bot_id = i then { c with runner := tickStep c.runner env } else c)

/-- Apply a sequence of context-level operations. -/
def applyLMOps (reg : List BotContextM) : List LMOp → List BotContextM
  | [] => reg
  | op :: rest => applyLMOps (applyLMOp reg op) rest

/-- Dead-bot test of one monitor pass (lifecycle_manager.py lines
340-351): the heartbeat is truthy and older than 300 seconds, or the
runner task is no longer running. -/
def deadBot (now : ℕ) (c : BotContextM) : Bool :=
  (0 < c.last_heartbeat ∧ c.last_heartbeat + 300 < now) ∨ ¬ c.runner.running_flag

/-- One sweep of `BotLifecycleManager._monitor_bots` plus the
`_cleanup_dead_bot` calls it makes (lifecycle_manager.py lines 333-387):
every dead context is removed from the registry and its persisted status
is written as `ERROR`.  Returns the surviving registry and the status
writes performed. -/
def monitorSweep (reg : List BotContextM) (now : ℕ) :
    List BotContextM × List (ℕ × BotStatus) :=
  (reg.filter (fun c => ¬ deadBot now c),
   (reg.filter (deadBot now)).map (fun c => (c.bot_id, BotStatus.error)))

/-! ### Auxiliary definitions used by the verification -/

/-- Terminal order statuses (those `OrderInfo.is_completed` recognizes). -/
def terminalStatus (st : OrderStatus) : Bool :=
  st = .filled ∨ st = .canceled ∨ st = .rejected ∨ st = .expired

/-- Fold of a sequence of `get_order_status` calls over executor state,
each call given the id queried and the exchange response it observed. -/
def runGetStatus (ex : OrderExecutor) : List (String × Option ExchOrder) → OrderExecutor
  | [] => ex
  | (q, r) :: rest => runGetStatus (get_order_status ex q r).2 rest

/-- Tick environment in which the tick body raises an exception. -/
def raiseTick : TickEnv := { raises := true }

/-- Loop state of a freshly started runner holding quantity `q`:
`run()` entered, no errors yet, no flags set. -/
def freshLoopState (q : ℚ) : LoopState := { position_qty := q }

/-- Filled market buy of one unit at 50 used to drive the position
counterexamples: the shape `update_order_status` receives after a fill. -/
def buyFill (i : String) : OrderInfo :=
  { order_id := i, symbol := "BTC/USDT", side := .buy, type := .market,
    quantity := 1, status := .filled, filled_quantity := 1,
    remaining_quantity := 0, average_price := some 50, cost := 50 }

/-- One submit-then-fill round of a grid buy. -/
def gridRound (i : String) : List PMOp :=
  [.addBuy (buyFill i), .updateStatus (buyFill i)]

/-- Eight submit-then-fill rounds of grid buys (one more than the
default `max_grid_level = 7`). -/
def gridBuyOps : List PMOp :=
  gridRound "b1" ++ gridRound "b2" ++ gridRound "b3" ++ gridRound "b4" ++
  gridRound "b5" ++ gridRound "b6" ++ gridRound "b7" ++ gridRound "b8"

/-- Market-order response of the bundled dummy exchange clients
(bot_runner.py lines 685-700 and the executor's built-in dummy, lines
323-334): status string "closed". -/
def dummyClosedResp : ExchOrder :=
  { id := "dummy_1", status := "closed", price := some 50000,
    average := some 50000, cost := 50, filled := 1 / 1000 }

/-! ### Theorems -/

/-- C1.  The claim says a Start on a startable, non-running bot with
valid API keys constructs a `BotRunner`, persists `RUNNING`, schedules
`run()` and returns success.  On the source it cannot: `_start_bot`
passes two positional arguments to a constructor that requires three
(`bot_id`, `user_id`, `config`), so the construction raises `TypeError`,
the `except` branch persists `ERROR`, the registry is untouched and the
call returns failure.  Evaluated here at a concrete startable bot. -/
theorem C1_start_bot_fails_with_type_error :
    start_bot [] { id := 1, user_id := 2, status := .created } (some ()) =
      ({ success := false, persisted_status := some .error }, []) ∧
    callBotRunnerInit startBotCtorArgs = .typeError ∧
    startable .created = true := by
  decide

/-- Risk-manager state of the C2 evaluation: capital 1000, one recorded
losing trade of −60. -/
def c2State : RiskManager := (RiskManager.init 1000).record_trade (-60)

/-- C2.  The claim says a daily-loss breach (with the total-loss check
passing) yields `should_pause = true` with severity `HIGH`.  On the
source `_check_loss_limits` does build exactly that result, but
`check_risk` forwards the loss-check result only `if
loss_check.should_stop`, so the pause verdict is discarded and, with no
other breach, the neutral passed result comes back.  Evaluated at
capital 1000 after one recorded trade of −60 (daily ratio −6% ≤ the −5%
limit, total ratio −6% above the −15% stop). -/
theorem C2_daily_loss_pause_discarded :
    ¬ ((-60 : ℚ) / c2State.capital * 100 ≤ c2State.max_loss_percentage) ∧
    c2State.daily_pnl / c2State.capital * 100 ≤ c2State.daily_loss_limit ∧
    (RiskManager.check_loss_limits c2State (-60)).should_pause = true ∧
    (RiskManager.check_loss_limits c2State (-60)).severity = "HIGH" ∧
    (RiskManager.check_risk c2State 50000 0 (-60) false false).1.should_pause = false ∧
    (RiskManager.check_risk c2State 50000 0 (-60) false false).1.severity = "LOW" := by
  unfold c2State
  norm_num [RiskManager.init, RiskManager.record_trade, RiskManager.check_risk,
    RiskManager.reset_time_counters, RiskManager.check_loss_limits,
    RiskManager.check_position_size, RiskManager.check_trading_frequency,
    RiskManager.check_market_volatility, RiskManager.check_drawdown]

/-- Splitting an operation sequence splits the fold. -/
lemma applyOps_append (m : PositionManager) (l₁ l₂ : List PMOp) :
    m.applyOps (l₁ ++ l₂) = (m.applyOps l₁).applyOps l₂ := by
  induction l₁ generalizing m with
  | nil => rfl
  | cons op rest ih => simp [PositionManager.applyOps, ih]

/-- One grid round from a state with no pending orders: the buy is
registered and then filled, leaving no pending order and a grid level one
higher (with the same `max_grid_level`), regardless of the rest of the
state. -/
lemma grid_round_step (m : PositionManager) (i : String) (h : m.pending_orders = []) :
    (m.applyOps (gridRound i)).pending_orders = [] ∧
    (m.applyOps (gridRound i)).position.grid_level = m.position.grid_level + 1 ∧
    (m.applyOps (gridRound i)).position.max_grid_level = m.position.max_grid_level := by
  simp only [gridRound, PositionManager.applyOps, PositionManager.applyOp,
    PositionManager.add_buy_order, PositionManager.update_order_status,
    PositionManager.process_filled_order, Position.update_average_price,
    buyFill, findById, insertById, eraseById, h]
  norm_num
  split_ifs <;> simp

/-- C3, counterexample.  Starting from a fresh position manager
(default `max_grid_level = 7`), eight submit-then-fill buy rounds drive
`grid_level` to 8: `_process_filled_order` increments it without any
cap, so it leaves `[0, max_grid_level]`. -/
theorem C3_counterexample :
    let m := (PositionManager.init "BTC/USDT").applyOps gridBuyOps
    m.position.grid_level = 8 ∧ m.position.max_grid_level = 7 ∧
    ¬ m.position.grid_level ≤ m.position.max_grid_level := by
  intro m
  have h0 : (PositionManager.init "BTC/USDT").pending_orders = [] := rfl
  have g0 : (PositionManager.init "BTC/USDT").position.grid_level = 0 := rfl
  have x0 : (PositionManager.init "BTC/USDT").position.max_grid_level = 7 := rfl
  have h1 := grid_round_step (PositionManager.init "BTC/USDT") "b1" h0
  have h2 := grid_round_step _ "b2" h1.1
  have h3 := grid_round_step _ "b3" h2.1
  have h4 := grid_round_step _ "b4" h3.1
  have h5 := grid_round_step _ "b5" h4.1
  have h6 := grid_round_step _ "b6" h5.1
  have h7 := grid_round_step _ "b7" h6.1
  have h8 := grid_round_step _ "b8" h7.1
  have hm : m = ((((((((PositionManager.init "BTC/USDT").applyOps
      (gridRound "b1")).applyOps (gridRound "b2")).applyOps
      (gridRound "b3")).applyOps (gridRound "b4")).applyOps
      (gridRound "b5")).applyOps (gridRound "b6")).applyOps
      (gridRound "b7")).applyOps (gridRound "b8") := by
    show (PositionManager.init "BTC/USDT").applyOps gridBuyOps = _
    simp only [gridBuyOps, applyOps_append]
  rw [hm]
  refine ⟨?_, ?_, ?_⟩ <;>
    simp only [h8.2.1, h7.2.1, h6.2.1, h5.2.1, h4.2.1, h3.2.1, h2.2.1, h1.2.1, g0,
      h8.2.2, h7.2.2, h6.2.2, h5.2.2, h4.2.2, h3.2.2, h2.2.2, h1.2.2, x0] <;>
    norm_num

/-- Every applied operation keeps the grid level non-negative. -/
lemma grid_step_nonneg (m : PositionManager) (op : PMOp)
    (h : 0 ≤ m.position.grid_level) : 0 ≤ (m.applyOp op).position.grid_level := by
  cases op with
  | addBuy o =>
      simp only [PositionManager.applyOp, PositionManager.add_buy_order]
      split_ifs <;> simpa using h
  | addSell o =>
      simp only [PositionManager.applyOp, PositionManager.add_sell_order]
      split_ifs <;> simpa using h
  | updateStatus o =>
      simp only [PositionManager.applyOp, PositionManager.update_order_status]
      cases hfind : findById m.pending_orders o.order_id with
      | none => simpa using h
      | some o₀ =>
          simp only
          split_ifs with hf hcr
          · cases hside : o.side with
            | buy =>
                simp only [PositionManager.process_filled_order, hside,
                  Position.update_average_price]
                split_ifs <;> simp <;> omega
            | sell =>
                simp only [PositionManager.process_filled_order, hside,
                  PositionManager.close_position]
                split_ifs <;> simpa using h
          · simpa using h
          · simpa using h

/-- C3, amended.  Processing a Filled buy through `updateOrderStatus`
increments `grid_level` by exactly one, with no cap at `max_grid_level`;
what remains of the claimed invariant is the lower bound: along every
sequence of operations from a fresh manager, `grid_level` stays
non-negative (it is only ever reset to 0 or incremented). -/
theorem C3_grid_level_amended :
    (∀ (m : PositionManager) (o : OrderInfo),
        o.side = .buy → o.status = .filled →
        (findById m.pending_orders o.order_id).isSome = true →
        (m.update_order_status o).position.grid_level = m.position.grid_level + 1) ∧
    (∀ (symbol : String) (ops : List PMOp),
        0 ≤ ((PositionManager.init symbol).applyOps ops).position.grid_level) := by
  constructor
  · intro m o hside hfill hpend
    simp only [PositionManager.update_order_status]
    cases hfind : findById m.pending_orders o.order_id with
    | none => rw [hfind] at hpend; simp at hpend
    | some o₀ =>
        simp only [hfill, if_true, PositionManager.process_filled_order, hside,
          Position.update_average_price]
        split_ifs <;> simp
  · intro symbol ops
    have h0 : 0 ≤ (PositionManager.init symbol).position.grid_level := by
      simp [PositionManager.init]
    generalize (PositionManager.init symbol) = m at h0 ⊢
    induction ops generalizing m with
    | nil => exact h0
    | cons op rest ih =>
        exact ih (m.applyOp op) (grid_step_nonneg m op h0)

/-- Witness for the amended C3 at a concrete filled buy on a manager
with that order pending. -/
theorem C3_witness :
    ((buyFill "w").side = .buy ∧ (buyFill "w").status = .filled ∧
      (findById (((PositionManager.init "BTC/USDT").add_buy_order (buyFill "w")).pending_orders)
        "w").isSome = true) ∧
    ((((PositionManager.init "BTC/USDT").add_buy_order (buyFill "w")).update_order_status
        (buyFill "w")).position.grid_level =
      ((PositionManager.init "BTC/USDT").add_buy_order (buyFill "w")).position.grid_level + 1) :=
  ⟨⟨by decide, by decide,
    by simp [PositionManager.init, PositionManager.add_buy_order, buyFill, findById, insertById]⟩,
   C3_grid_level_amended.1 _ (buyFill "w") (by decide) (by decide)
    (by simp [PositionManager.init, PositionManager.add_buy_order, buyFill, findById, insertById])⟩

/-- Invariant step: `_process_filled_order` re-establishes
`average_price = total_cost / total_quantity` whenever quantity stays
positive. -/
lemma process_filled_avg (m : PositionManager) (o : OrderInfo)
    (h : m.position.total_quantity > 0 →
      m.position.average_price = m.position.total_cost / m.position.total_quantity) :
    (m.process_filled_order o).position.total_quantity > 0 →
      (m.process_filled_order o).position.average_price =
        (m.process_filled_order o).position.total_cost /
          (m.process_filled_order o).position.total_quantity := by
  cases hside : o.side with
  | buy =>
      simp only [PositionManager.process_filled_order, hside, Position.update_average_price]
      split_ifs with hq
      · intro _; simp
      · intro hq'; simp at hq'; exact absurd hq' (by simpa using hq)
  | sell =>
      simp only [PositionManager.process_filled_order, hside, PositionManager.close_position]
      split_ifs with hclose hprofit <;> intro hq
      · norm_num at hq
      · norm_num at hq
      · have hne : m.position.total_quantity - o.filled_quantity ≠ 0 := ne_of_gt hq
        show m.position.average_price =
          (m.position.total_quantity - o.filled_quantity) * m.position.average_price /
            (m.position.total_quantity - o.filled_quantity)
        rw [mul_div_cancel_left₀ _ hne]

/-- Invariant step over any operation. -/
lemma avg_invariant_step (m : PositionManager) (op : PMOp)
    (h : m.position.total_quantity > 0 →
      m.position.average_price = m.position.total_cost / m.position.total_quantity) :
    (m.applyOp op).position.total_quantity > 0 →
      (m.applyOp op).position.average_price =
        (m.applyOp op).position.total_cost / (m.applyOp op).position.total_quantity := by
  cases op with
  | addBuy o =>
      simp only [PositionManager.applyOp, PositionManager.add_buy_order]
      split_ifs <;> simpa using h
  | addSell o =>
      simp only [PositionManager.applyOp, PositionManager.add_sell_order]
      split_ifs <;> simpa using h
  | updateStatus o =>
      simp only [PositionManager.applyOp, PositionManager.update_order_status]
      cases hfind : findById m.pending_orders o.order_id with
      | none => simpa using h
      | some o₀ =>
          simp only
          split_ifs with hf hcr
          · exact process_filled_avg _ o (by simpa using h)
          · simpa using h
          · simpa using h

/-- C4.  Along every sequence of operations carrying buy-side orders
applied to a fresh position manager, whenever `total_quantity > 0` the
position satisfies `average_price = total_cost / total_quantity` — exact
in this rational model of the source's `Decimal` arithmetic. -/
theorem C4_average_price_invariant (symbol : String) (ops : List PMOp)
    (hbuy : ∀ op ∈ ops, (PMOp.order op).side = OrderSide.buy) :
    ((PositionManager.init symbol).applyOps ops).position.total_quantity > 0 →
      ((PositionManager.init symbol).applyOps ops).position.average_price =
        ((PositionManager.init symbol).applyOps ops).position.total_cost /
          ((PositionManager.init symbol).applyOps ops).position.total_quantity := by
  clear hbuy
  have h0 : (PositionManager.init symbol).position.total_quantity > 0 →
      (PositionManager.init symbol).position.average_price =
        (PositionManager.init symbol).position.total_cost /
          (PositionManager.init symbol).position.total_quantity := by
    intro hq; simp [PositionManager.init] at hq
  generalize (PositionManager.init symbol) = m at h0 ⊢
  induction ops generalizing m with
  | nil => exact h0
  | cons op rest ih =>
      exact ih (m.applyOp op) (avg_invariant_step m op h0)

/-- Witness for C4: one submitted-and-filled buy of quantity 1 at cost 50
gives a positive quantity and average price `50 = 50 / 1`. -/
theorem C4_witness :
    (∀ op ∈ gridRound "w", (PMOp.order op).side = OrderSide.buy) ∧
    ((PositionManager.init "BTC/USDT").applyOps (gridRound "w")).position.total_quantity > 0 ∧
    ((PositionManager.init "BTC/USDT").applyOps (gridRound "w")).position.average_price =
      ((PositionManager.init "BTC/USDT").applyOps (gridRound "w")).position.total_cost /
        ((PositionManager.init "BTC/USDT").applyOps (gridRound "w")).position.total_quantity := by
  have hbuy : ∀ op ∈ gridRound "w", (PMOp.order op).side = OrderSide.buy := by
    intro op hop
    simp [gridRound, buyFill] at hop
    rcases hop with h | h <;> simp [h, PMOp.order, buyFill]
  have hq : ((PositionManager.init "BTC/USDT").applyOps (gridRound "w")).position.total_quantity
      > 0 := by
    norm_num [gridRound, buyFill, PositionManager.init, PositionManager.applyOps,
      PositionManager.applyOp, PositionManager.add_buy_order,
      PositionManager.update_order_status, PositionManager.process_filled_order,
      Position.update_average_price, findById, insertById, eraseById]
  exact ⟨hbuy, hq, C4_average_price_invariant "BTC/USDT" (gridRound "w") hbuy hq⟩

/-- Exhausted retries: when every attempt in the window fails the loop
returns `none` after exactly `fuel` attempts. -/
lemma execAttempts_all_failed (env : ℕ → ExchAttempt) :
    ∀ (fuel start : ℕ), (∀ i, start ≤ i → i < start + fuel → (env i).failed = true) →
      execAttempts env start fuel = none ∧ attemptsUsed env start fuel = fuel := by
  intro fuel
  induction fuel with
  | zero => intro start _; exact ⟨rfl, rfl⟩
  | succ n ih =>
      intro start h
      have h0 : (env start).failed = true := h start le_rfl (by omega)
      cases henv : env start with
      | returnsOrder r => rw [henv] at h0; simp [ExchAttempt.failed] at h0
      | raises =>
          have hrec := ih (start + 1) (fun i h1 h2 => h i (by omega) (by omega))
          constructor
          · simp [execAttempts, henv, hrec.1]
          · simp [attemptsUsed, henv, hrec.2]; omega
      | returnsNone =>
          have hrec := ih (start + 1) (fun i h1 h2 => h i (by omega) (by omega))
          constructor
          · simp [execAttempts, henv, hrec.1]
          · simp [attemptsUsed, henv, hrec.2]; omega

/-- C6.  When every underlying exchange submission attempt fails (raises
or returns nothing), both `create_market_order` and `create_limit_order`
return `None` and count a failed order instead of propagating an
exception, after the retry loop has made exactly `max_retries`
attempts. -/
theorem C6_retry_returns_failure (ex : OrderExecutor) (side : OrderSide) (q p : ℚ)
    (env : ℕ → ExchAttempt)
    (hfail : ∀ i, i < ex.max_retries → (env i).failed = true) :
    (create_market_order ex side q env).1 = none ∧
    (create_market_order ex side q env).2.failed_orders = ex.failed_orders + 1 ∧
    (create_limit_order ex side q p env).1 = none ∧
    (create_limit_order ex side q p env).2.failed_orders = ex.failed_orders + 1 ∧
    execute_exchange_order ex.max_retries env = none ∧
    attemptsUsed env 0 ex.max_retries = ex.max_retries := by
  have h := execAttempts_all_failed env ex.max_retries 0
    (fun i h1 h2 => hfail i (by omega))
  have hnone : execute_exchange_order ex.max_retries env = none := h.1
  refine ⟨?_, ?_, ?_, ?_, hnone, h.2⟩ <;>
    simp [create_market_order, create_limit_order, hnone]

/-- Witness for C6 at the default executor and an always-raising
exchange. -/
theorem C6_witness :
    (∀ i, i < ({ symbol := "BTC/USDT" } : OrderExecutor).max_retries →
        ((fun _ => ExchAttempt.raises) i).failed = true) ∧
    (create_market_order { symbol := "BTC/USDT" } .buy 1 (fun _ => .raises)).1 = none ∧
    (create_limit_order { symbol := "BTC/USDT" } .sell 1 51000 (fun _ => .raises)).1 = none ∧
    attemptsUsed (fun _ => ExchAttempt.raises) 0
      ({ symbol := "BTC/USDT" } : OrderExecutor).max_retries = 3 := by
  have hf : ∀ i, i < ({ symbol := "BTC/USDT" } : OrderExecutor).max_retries →
      ((fun _ => ExchAttempt.raises) i).failed = true := fun i _ => rfl
  have h := C6_retry_returns_failure { symbol := "BTC/USDT" } .buy 1 51000
    (fun _ => .raises) hf
  have h' := C6_retry_returns_failure { symbol := "BTC/USDT" } .sell 1 51000
    (fun _ => .raises) hf
  exact ⟨hf, h.1, h'.2.2.1, h.2.2.2.2.2⟩

/-- C8.  Whenever the exchange answers a market-order submission with
status string "closed" — the normal immediately-filled response of both
bundled dummy clients — `create_market_order` returns `None` and counts
a failed order: "closed" is not an `OrderStatus` member, so the enum
conversion raises inside the guarded body before the immediate-fill
branch can run. -/
theorem C8_closed_status_rejected (ex : OrderExecutor) (side : OrderSide) (q : ℚ)
    (env : ℕ → ExchAttempt) (resp : ExchOrder)
    (henv : execute_exchange_order ex.max_retries env = some resp)
    (hst : resp.status = "closed") :
    (create_market_order ex side q env).1 = none ∧
    (create_market_order ex side q env).2.failed_orders = ex.failed_orders + 1 ∧
    statusOfString resp.status = none := by
  have hs : statusOfString resp.status = none := by rw [hst]; decide
  refine ⟨?_, ?_, hs⟩ <;> simp [create_market_order, henv, hs]

/-- Witness for C8 at the dummy-client response shape. -/
theorem C8_witness :
    execute_exchange_order ({ symbol := "BTC/USDT" } : OrderExecutor).max_retries
        (fun _ => .returnsOrder dummyClosedResp) = some dummyClosedResp ∧
    dummyClosedResp.status = "closed" ∧
    (create_market_order { symbol := "BTC/USDT" } .buy (1 / 1000)
        (fun _ => .returnsOrder dummyClosedResp)).1 = none ∧
    (create_market_order { symbol := "BTC/USDT" } .buy (1 / 1000)
        (fun _ => .returnsOrder dummyClosedResp)).2.failed_orders =
      ({ symbol := "BTC/USDT" } : OrderExecutor).failed_orders + 1 := by
  have h := C8_closed_status_rejected { symbol := "BTC/USDT" } .buy (1 / 1000)
    (fun _ => .returnsOrder dummyClosedResp) dummyClosedResp rfl rfl
  exact ⟨rfl, rfl, h.1, h.2.1⟩

/-- Update of an order's status never changes its id. -/
lemma update_status_order_id (o : OrderInfo) (st : OrderStatus) (fq ap : Option ℚ) :
    (o.update_status st fq ap).order_id = o.order_id := by
  simp only [OrderInfo.update_status]
  cases fq <;> cases ap <;> split_ifs <;> rfl

/-- Update of an order's status sets exactly the requested status. -/
lemma update_status_status (o : OrderInfo) (st : OrderStatus) (fq ap : Option ℚ) :
    (o.update_status st fq ap).status = st := by
  simp only [OrderInfo.update_status]
  cases fq <;> cases ap <;> split_ifs <;> rfl

/-- Completion is a predicate of the status alone. -/
lemma is_completed_eq_terminal (o : OrderInfo) :
    o.is_completed = terminalStatus o.status := rfl

/-- A member of the dict after a keyed write is an old member or the
written order. -/
lemma insertById_mem {l : List OrderInfo} {x o : OrderInfo} (h : o ∈ insertById l x) :
    o ∈ l ∨ o = x := by
  unfold insertById at h
  split_ifs at h
  · obtain ⟨a, ha, hao⟩ := List.mem_map.1 h
    by_cases hid : a.order_id = x.order_id
    · rw [if_pos hid] at hao; right; exact hao.symm
    · rw [if_neg hid] at hao; left; exact hao ▸ ha
  · rcases List.mem_append.1 h with h | h
    · exact Or.inl h
    · exact Or.inr (List.mem_singleton.1 h)

/-- Unfolding a successful keyed lookup. -/
lemma findById_eq_some {l : List OrderInfo} {i : String} {o : OrderInfo}
    (h : findById l i = some o) : o ∈ l ∧ o.order_id = i := by
  unfold findById at h
  exact ⟨List.mem_of_find?_eq_some h, by simpa using List.find?_some h⟩

/-- Zero occurrences of an id means no member carries it. -/
lemma countById_zero_iff (l : List OrderInfo) (i : String) :
    countById l i = 0 ↔ ∀ o ∈ l, ¬ o.order_id = i := by
  simp [countById, List.length_eq_zero, List.filter_eq_nil]

/-- Occurrence counts add over append. -/
lemma countById_append (l₁ l₂ : List OrderInfo) (i : String) :
    countById (l₁ ++ l₂) i = countById l₁ i + countById l₂ i := by
  simp [countById, List.filter_append]

/-- A keyed delete leaves no occurrence of the id. -/
lemma countById_eraseById (l : List OrderInfo) (i : String) :
    countById (eraseById l i) i = 0 := by
  rw [countById_zero_iff]
  intro o ho
  have := (List.mem_filter.1 ho).2
  simpa using this

/-- Lookup of an id held only by the appended last element. -/
lemma findById_append_last {l : List OrderInfo} {i : String} {o : OrderInfo}
    (h : countById l i = 0) (ho : o.order_id = i) : findById (l ++ [o]) i = some o := by
  induction l with
  | nil => simp [findById, List.find?, ho]
  | cons a rest ih =>
      have ha : ¬ a.order_id = i := (countById_zero_iff _ _).1 h a (List.mem_cons_self a rest)
      have hrest : countById rest i = 0 := by
        rw [countById_zero_iff]
        exact fun x hx => (countById_zero_iff _ _).1 h x (List.mem_cons_of_mem a hx)
      simpa [findById, List.find?, ha] using ih hrest

/-- A `get_order_status` call on an id absent from the active set leaves
the state unchanged and only reads the completed list. -/
lemma gos_not_active (ex : OrderExecutor) (i : String) (resp : Option ExchOrder)
    (h : ∀ o ∈ ex.active_orders, ¬ o.order_id = i) :
    get_order_status ex i resp = (findById ex.completed_orders i, ex) := by
  have hfind : findById ex.active_orders i = none := by
    unfold findById
    rw [List.find?_eq_none]
    intro o ho
    simpa using h o ho
  unfold get_order_status
  rw [hfind]
  cases hc : findById ex.completed_orders i <;> simp

/-- No `get_order_status` call ever introduces an absent id into the
active set or changes how often it occurs among completed orders. -/
lemma gos_absent_stable (ex : OrderExecutor) (qid : String) (resp : Option ExchOrder)
    (i : String) (h : ∀ o ∈ ex.active_orders, ¬ o.order_id = i) :
    (∀ o ∈ (get_order_status ex qid resp).2.active_orders, ¬ o.order_id = i) ∧
    countById (get_order_status ex qid resp).2.completed_orders i =
      countById ex.completed_orders i := by
  unfold get_order_status
  cases hfind : findById ex.active_orders qid with
  | none =>
      simp only [hfind]
      cases hc : findById ex.completed_orders qid <;> simp only [hc] <;> exact ⟨h, by trivial⟩
  | some info =>
      simp only [hfind]
      obtain ⟨hmem, hid⟩ := findById_eq_some hfind
      have hqi : ¬ qid = i := fun he => h info hmem (hid.trans he)
      cases resp with
      | none => exact ⟨h, by trivial⟩
      | some r =>
          cases hst : statusOfString r.status with
          | none => simp only [hst]; exact ⟨h, by trivial⟩
          | some st =>
              simp only [hst]
              have hoi : (info.update_status st (some r.filled) (pyTruthy r.average)).order_id
                  = qid := (update_status_order_id info st _ _).trans hid
              have hactive2 : ∀ o ∈ insertById ex.active_orders
                  (info.update_status st (some r.filled) (pyTruthy r.average)),
                  ¬ o.order_id = i := by
                intro o ho
                rcases insertById_mem ho with h1 | h1
                · exact h o h1
                · rw [h1, hoi]; exact hqi
              have hactive : ∀ o ∈ eraseById (insertById ex.active_orders
                  (info.update_status st (some r.filled) (pyTruthy r.average))) qid,
                  ¬ o.order_id = i := by
                intro o ho
                exact hactive2 o (List.mem_filter.1 ho).1
              have hcomp : countById (ex.completed_orders ++
                  [info.update_status st (some r.filled) (pyTruthy r.average)]) i =
                  countById ex.completed_orders i := by
                rw [countById_append]
                have hz : countById [info.update_status st (some r.filled) (pyTruthy r.average)] i
                    = 0 := by
                  rw [countById_zero_iff]
                  intro o ho
                  rw [List.mem_singleton.1 ho, hoi]
                  exact hqi
                rw [hz]
                omega
              split_ifs with hmov hfil
              · exact ⟨hactive, hcomp⟩
              · exact ⟨hactive, hcomp⟩
              · exact ⟨hactive2, by trivial⟩

/-- Stability of an absent id under any sequence of `get_order_status`
calls. -/
lemma runGetStatus_absent (calls : List (String × Option ExchOrder)) :
    ∀ (ex : OrderExecutor) (i : String), (∀ o ∈ ex.active_orders, ¬ o.order_id = i) →
      (∀ o ∈ (runGetStatus ex calls).active_orders, ¬ o.order_id = i) ∧
      countById (runGetStatus ex calls).completed_orders i =
        countById ex.completed_orders i := by
  induction calls with
  | nil => exact fun ex i h => ⟨h, rfl⟩
  | cons c rest ih =>
      intro ex i h
      obtain ⟨h1, h2⟩ := gos_absent_stable ex c.1 c.2 i h
      obtain ⟨h3, h4⟩ := ih (get_order_status ex c.1 c.2).2 i h1
      exact ⟨by simpa [runGetStatus] using h3, by simpa [runGetStatus] using h4.trans h2⟩

/-- C5.  A tracked active order whose refreshed exchange status first
becomes terminal is moved from the active set to the completed set on
exactly that call: the call returns the refreshed order, afterwards the
id is gone from the active set and occurs exactly once among completed
orders, it still occurs exactly once after any further sequence of
`get_order_status` calls, and a later call on the id returns the retired
order and leaves the executor state unchanged. -/
theorem C5_completed_once (ex : OrderExecutor) (oid : String) (info : OrderInfo)
    (r : ExchOrder) (st : OrderStatus)
    (hfind : findById ex.active_orders oid = some info)
    (hact : info.is_completed = false)
    (hdone : countById ex.completed_orders oid = 0)
    (hst : statusOfString r.status = some st)
    (hterm : terminalStatus st = true) :
    (get_order_status ex oid (some r)).1 =
      some (info.update_status st (some r.filled) (pyTruthy r.average)) ∧
    countById (get_order_status ex oid (some r)).2.active_orders oid = 0 ∧
    countById (get_order_status ex oid (some r)).2.completed_orders oid = 1 ∧
    (∀ calls, countById
        (runGetStatus (get_order_status ex oid (some r)).2 calls).completed_orders oid = 1) ∧
    (∀ resp2, get_order_status (get_order_status ex oid (some r)).2 oid resp2 =
      (some (info.update_status st (some r.filled) (pyTruthy r.average)),
       (get_order_status ex oid (some r)).2)) := by
  obtain ⟨hmem, hid⟩ := findById_eq_some hfind
  set oi := info.update_status st (some r.filled) (pyTruthy r.average) with hoi_def
  have hoi_id : oi.order_id = oid := (update_status_order_id info st _ _).trans hid
  have hcompl : oi.is_completed = true := by
    rw [is_completed_eq_terminal, update_status_status]
    exact hterm
  have hneq : ¬ info.status = st := by
    intro he
    rw [is_completed_eq_terminal, he, hterm] at hact
    exact Bool.true_eq_false.mp hact
  have hgos : get_order_status ex oid (some r) =
      (some oi,
       { ex with
           active_orders := eraseById (insertById ex.active_orders oi) oid,
           completed_orders := ex.completed_orders ++ [oi],
           successful_orders :=
             if st = .filled then ex.successful_orders + 1 else ex.successful_orders }) := by
    unfold get_order_status
    simp only [hfind, hst]
    rw [if_pos ⟨hcompl, hneq⟩]
  rw [hgos]
  have hactive0 : countById
      (eraseById (insertById ex.active_orders oi) oid) oid = 0 := countById_eraseById _ _
  have habsent : ∀ o ∈ eraseById (insertById ex.active_orders oi) oid, ¬ o.order_id = oid :=
    (countById_zero_iff _ _).1 hactive0
  have hcomp1 : countById (ex.completed_orders ++ [oi]) oid = 1 := by
    rw [countById_append, hdone]
    simp [countById, hoi_id]
  refine ⟨rfl, hactive0, hcomp1, ?_, ?_⟩
  · intro calls
    have hstable := runGetStatus_absent calls
      { ex with
          active_orders := eraseById (insertById ex.active_orders oi) oid,
          completed_orders := ex.completed_orders ++ [oi],
          successful_orders :=
            if st = .filled then ex.successful_orders + 1 else ex.successful_orders }
      oid habsent
    rw [hstable.2]
    exact hcomp1
  · intro resp2
    rw [gos_not_active _ _ _ habsent]
    rw [findById_append_last hdone hoi_id]

/-- Active sell order used by the C5 witness. -/
def c5Order : OrderInfo :=
  { order_id := "o1", symbol := "BTC/USDT", side := .sell, type := .limit,
    quantity := 1, price := some 51000, status := .opn, remaining_quantity := 1 }

/-- Executor tracking that one active order. -/
def c5Exec : OrderExecutor := { symbol := "BTC/USDT", active_orders := [c5Order] }

/-- Exchange refresh reporting the order filled. -/
def c5Resp : ExchOrder := { id := "o1", status := "filled", filled := 1, average := some 49500 }

/-- Witness for C5 at a concrete tracked order whose refresh reports a
fill, including one further call on the retired id and one on a foreign
id. -/
theorem C5_witness :
    (findById c5Exec.active_orders "o1" = some c5Order ∧
     c5Order.is_completed = false ∧
     countById c5Exec.completed_orders "o1" = 0 ∧
     statusOfString c5Resp.status = some .filled ∧
     terminalStatus .filled = true) ∧
    countById (get_order_status c5Exec "o1" (some c5Resp)).2.active_orders "o1" = 0 ∧
    countById (get_order_status c5Exec "o1" (some c5Resp)).2.completed_orders "o1" = 1 ∧
    countById (runGetStatus (get_order_status c5Exec "o1" (some c5Resp)).2
      [("o1", none), ("o2", some c5Resp)]).completed_orders "o1" = 1 := by
  have h := C5_completed_once c5Exec "o1" c5Order c5Resp .filled rfl rfl rfl rfl rfl
  exact ⟨⟨rfl, rfl, rfl, rfl, rfl⟩, h.2.1, h.2.2.1,
    h.2.2.2.1 [("o1", none), ("o2", some c5Resp)]⟩

/-- The loop processes nothing further once it has exited or a stop is
requested. -/
lemma runLoop_of_halted (s : LoopState) (l : List TickEnv)
    (h : s.exited = true ∨ s.stop_requested = true) : runLoop s l = s := by
  cases l with
  | nil => rfl
  | cons e rest =>
      rcases h with h | h <;> simp [runLoop, h]

/-- A paused iteration only counts the tick: every other field of the
loop state — including the effect counters and the `exited` flag — is
untouched, whatever the tick environment offers. -/
lemma tickStep_paused (s : LoopState) (env : TickEnv) (hp : s.paused = true) :
    tickStep s env = { s with tick_count := s.tick_count + 1 } := by
  simp [tickStep, hp]

set_option maxHeartbeats 1600000 in
/-- C7.  From a freshly started runner holding quantity `q`, five
consecutive tick exceptions trigger exactly one `_emergency_stop`:
`cancel_all_orders` runs once, the forced liquidation is issued once
(exactly when some quantity is held), the bot transitions to `ERROR`,
the stop flag is set and the loop exits — and any continuation of the
trace is not processed, so nothing can re-trigger the emergency stop. -/
theorem C7_emergency_stop_once (q : ℚ) (extra : List TickEnv) :
    (runLoop (freshLoopState q) (List.replicate 5 raiseTick ++ extra)).emergency_stops = 1 ∧
    (runLoop (freshLoopState q) (List.replicate 5 raiseTick ++ extra)).cancel_all_calls = 1 ∧
    (runLoop (freshLoopState q) (List.replicate 5 raiseTick ++ extra)).liquidation_orders =
      (if q > 0 then 1 else 0) ∧
    (runLoop (freshLoopState q) (List.replicate 5 raiseTick ++ extra)).state = BotState.error ∧
    (runLoop (freshLoopState q) (List.replicate 5 raiseTick ++ extra)).stop_requested = true ∧
    (runLoop (freshLoopState q) (List.replicate 5 raiseTick ++ extra)).exited = true ∧
    (runLoop (freshLoopState q) (List.replicate 5 raiseTick ++ extra)).tick_count = 5 := by
  have h1 : tickStep (freshLoopState q) raiseTick =
      { freshLoopState q with tick_count := 1, error_count := 1 } := rfl
  have h2 : tickStep { freshLoopState q with tick_count := 1, error_count := 1 } raiseTick =
      { freshLoopState q with tick_count := 2, error_count := 2 } := rfl
  have h3 : tickStep { freshLoopState q with tick_count := 2, error_count := 2 } raiseTick =
      { freshLoopState q with tick_count := 3, error_count := 3 } := rfl
  have h4 : tickStep { freshLoopState q with tick_count := 3, error_count := 3 } raiseTick =
      { freshLoopState q with tick_count := 4, error_count := 4 } := rfl
  have h5 : tickStep { freshLoopState q with tick_count := 4, error_count := 4 } raiseTick =
      { freshLoopState q with
          tick_count := 5, error_count := 5, exited := true, stop_requested := true,
          state := BotState.error, emergency_stops := 1, cancel_all_calls := 1,
          liquidation_orders := if q > 0 then 1 else 0 } := rfl
  have hrun : runLoop (freshLoopState q) (List.replicate 5 raiseTick ++ extra) =
      { freshLoopState q with
          tick_count := 5, error_count := 5, exited := true, stop_requested := true,
          state := BotState.error, emergency_stops := 1, cancel_all_calls := 1,
          liquidation_orders := if q > 0 then 1 else 0 } := by
    have hl : List.replicate 5 raiseTick ++ extra =
        raiseTick :: (raiseTick :: (raiseTick :: (raiseTick :: (raiseTick :: extra)))) := rfl
    rw [hl]
    rw [runLoop, if_neg (by norm_num [freshLoopState]), h1]
    rw [runLoop, if_neg (by norm_num [freshLoopState]), h2]
    rw [runLoop, if_neg (by norm_num [freshLoopState]), h3]
    rw [runLoop, if_neg (by norm_num [freshLoopState]), h4]
    rw [runLoop, if_neg (by norm_num [freshLoopState]), h5]
    exact runLoop_of_halted _ extra (Or.inl rfl)
  rw [hrun]
  norm_num

/-- C10.  While the pause flag is set and no immediate stop is
requested, the trading loop is inert: over any trace it only accumulates
tick counts — no market data is fetched, no order is placed, the
graceful-stop flag (even if set, with a flat position on offer in the
environment) never makes it exit.  `resume()` clears the pause flag and
`stop()` sets the immediate-stop flag, which makes the loop halt at the
next head check. -/
theorem C10_paused_loop_inert (s : LoopState) (envs : List TickEnv)
    (hp : s.paused = true) (hs : s.stop_requested = false) (he : s.exited = false) :
    runLoop s envs = { s with tick_count := s.tick_count + envs.length } ∧
    (∀ env, tickStep s env = { s with tick_count := s.tick_count + 1 }) ∧
    s.resumeBot.paused = false ∧
    s.stopBot.stop_requested = true ∧
    (∀ l, runLoop s.stopBot l = s.stopBot) := by
  refine ⟨?_, fun env => tickStep_paused s env hp,
    by simp [LoopState.resumeBot], by simp [LoopState.stopBot],
    fun l => runLoop_of_halted _ l (Or.inr (by simp [LoopState.stopBot]))⟩
  induction envs generalizing s with
  | nil => rfl
  | cons e rest ih =>
      rw [runLoop, if_neg (by simp [hs, he]), tickStep_paused s e hp,
        ih { s with tick_count := s.tick_count + 1 } hp hs he]
      have harith : s.tick_count + 1 + rest.length = s.tick_count + (rest.length + 1) := by
        omega
      simp [harith]

/-- Witness for C10: a paused runner with a pending graceful stop, fed a
trace that offers a flat position, market data and a buy signal, ends
with only its tick count advanced. -/
theorem C10_witness :
    let s : LoopState := { paused := true, graceful_stop_requested := true, state := .paused }
    let envs : List TickEnv :=
      [{ market_price := some 50000, signal_action := .buy, has_open_position := false }]
    s.paused = true ∧ s.stop_requested = false ∧ s.exited = false ∧
    runLoop s envs = { s with tick_count := s.tick_count + envs.length } :=
  ⟨rfl, rfl, rfl,
   (C10_paused_loop_inert _ _ rfl rfl rfl).1⟩

/-- Post-start operations preserve the heartbeat of every surviving
context: each is a per-id runner update that never writes
`last_heartbeat`. -/
lemma applyLMOp_heartbeat (reg : List BotContextM) (op : LMOp) (c' : BotContextM)
    (h : c' ∈ applyLMOp reg op) :
    ∃ c ∈ reg, c.bot_id = c'.bot_id ∧ c.last_heartbeat = c'.last_heartbeat := by
  have hmap : ∀ (i : ℕ) (f : LoopState → LoopState),
      c' ∈ reg.map (fun c => if c.bot_id = i then { c with runner := f c.runner } else c) →
      ∃ c ∈ reg, c.bot_id = c'.bot_id ∧ c.last_heartbeat = c'.last_heartbeat := by
    intro i f hm
    obtain ⟨c, hc, heq⟩ := List.mem_map.1 hm
    by_cases hid : c.bot_id = i
    · rw [if_pos hid] at heq; subst heq; exact ⟨c, hc, rfl, rfl⟩
    · rw [if_neg hid] at heq; subst heq; exact ⟨c, hc, rfl, rfl⟩
  cases op with
  | heartbeatIteration i => exact ⟨c', h, rfl, rfl⟩
  | pauseBot i => exact hmap i LoopState.pauseBot h
  | resumeBot i => exact hmap i LoopState.resumeBot h
  | gracefulStop i => exact hmap i LoopState.request_graceful_stop h
  | stopRunner i => exact hmap i LoopState.stopBot h
  | runnerTick i env => exact hmap i (tickStep · env) h

/-- Heartbeat preservation over any operation sequence. -/
lemma applyLMOps_heartbeat (ops : List LMOp) :
    ∀ (reg : List BotContextM) (c' : BotContextM), c' ∈ applyLMOps reg ops →
      ∃ c ∈ reg, c.bot_id = c'.bot_id ∧ c.last_heartbeat = c'.last_heartbeat := by
  induction ops with
  | nil => exact fun reg c' h => ⟨c', h, rfl, rfl⟩
  | cons op rest ih =>
      intro reg c' h
      obtain ⟨c₁, hc₁, hid₁, hhb₁⟩ := ih (applyLMOp reg op) c' h
      obtain ⟨c, hc, hid, hhb⟩ := applyLMOp_heartbeat reg op c₁ hc₁
      exact ⟨c, hc, hid.trans hid₁, hhb.trans hhb₁⟩

/-- C9.  `last_heartbeat` is written once at startup and no subsequent
operation of the lifecycle manager or the runner (heartbeat loop
included — `_save_bot_state` is `pass`) ever updates it: after any
operation sequence every surviving context still carries the heartbeat
it was registered with.  Consequently a monitor sweep at any instant
more than 300 seconds past that heartbeat classifies the bot as dead,
removes it from the registry and persists its status as `ERROR`. -/
theorem C9_heartbeat_never_updated (ops : List LMOp) (reg : List BotContextM) (now : ℕ)
    (c' : BotContextM) (hmem : c' ∈ applyLMOps reg ops)
    (hpos : 0 < c'.last_heartbeat) (hstale : c'.last_heartbeat + 300 < now) :
    (∃ c ∈ reg, c.bot_id = c'.bot_id ∧ c.last_heartbeat = c'.last_heartbeat) ∧
    c' ∉ (monitorSweep (applyLMOps reg ops) now).1 ∧
    (c'.bot_id, BotStatus.error) ∈ (monitorSweep (applyLMOps reg ops) now).2 := by
  have hd : deadBot now c' = true := by simp [deadBot, hpos, hstale]
  refine ⟨applyLMOps_heartbeat ops reg c' hmem, ?_, ?_⟩
  · intro hmem'
    have := (List.mem_filter.1 hmem').2
    simp [hd] at this
  · exact List.mem_map.2 ⟨c', List.mem_filter.2 ⟨hmem, hd⟩, rfl⟩

/-- Registry with one context registered at heartbeat second 1000. -/
def c9Reg : List BotContextM := [{ bot_id := 1, last_heartbeat := 1000, runner := {} }]

/-- Post-start operations exercised by the C9 witness: a pause, a
heartbeat-loop pass, one paused tick and a resume. -/
def c9Ops : List LMOp :=
  [.pauseBot 1, .heartbeatIteration 1, .runnerTick 1 { market_price := some 50000 },
   .resumeBot 1]

/-- Context state after the C9 witness operations. -/
def c9After : BotContextM := { bot_id := 1, last_heartbeat := 1000, runner := { tick_count := 1 } }

/-- Witness for C9 at a concrete registry, operation sequence and a
sweep 400 seconds after registration. -/
theorem C9_witness :
    (c9After ∈ applyLMOps c9Reg c9Ops ∧ 0 < c9After.last_heartbeat ∧
      c9After.last_heartbeat + 300 < 1400) ∧
    ((∃ c ∈ c9Reg, c.bot_id = c9After.bot_id ∧ c.last_heartbeat = c9After.last_heartbeat) ∧
     c9After ∉ (monitorSweep (applyLMOps c9Reg c9Ops) 1400).1 ∧
     (c9After.bot_id, BotStatus.error) ∈ (monitorSweep (applyLMOps c9Reg c9Ops) 1400).2) := by
  have hmem : c9After ∈ applyLMOps c9Reg c9Ops := List.mem_singleton.2 rfl
  exact ⟨⟨hmem, by norm_num [c9After], by norm_num [c9After]⟩,
    C9_heartbeat_never_updated c9Ops c9Reg 1400 c9After hmem (by norm_num [c9After])
      (by norm_num [c9After])⟩



